import Mathlib

/-!
Shallow embedding of the request, normalization, session and download-naming
logic of the Buenos Aires data explorer (src/ckan2.py and
src/ba_explorer_app.py). Python strings are modeled as lists of characters,
optional dictionary fields as Option values, and each network call as a pure
function of the decoded upstream response.
-/

namespace BAExplorer

/-- Python strings are modeled as lists of characters. -/
abbrev Str := List Char

/-- Models Python str.isalnum restricted to the ASCII range, the character
domain over which the sanitizer claims are stated. -/
def pyIsAlnum (c : Char) : Bool := c.isAlphanum

/-- Characters kept unchanged by MenuExplorer.clean_filename (ckan2.py line
516): alphanumerics plus space, hyphen, underscore and dot. -/
def keptChar (c : Char) : Bool :=
  pyIsAlnum c || c == ' ' || c == '-' || c == '_' || c == '.'

/-- Per-character replacement step of clean_filename (ckan2.py lines 514-519):
anything outside the kept set becomes an underscore. -/
def replChar (c : Char) : Char := if keptChar c then c else '_'

/-- Characters the specification allows in a sanitized filename:
alphanumerics, hyphen, underscore and dot (no space). -/
def okChar (c : Char) : Bool := pyIsAlnum c || c == '-' || c == '_' || c == '.'

/-- Helper for splitting: pushes a character onto the first chunk. -/
def consHead (c : Char) : List Str → List Str
  | [] => [[c]]
  | w :: ws => (c :: w) :: ws

/-- Splits a character list at every occurrence of a separator character,
keeping empty chunks, like Python str.split(sep). -/
def splitOnC (sep : Char) (l : Str) : List Str :=
  l.foldr (fun c acc => if c == sep then [] :: acc else consHead c acc) [[]]

/-- Models Python str.split() on a string whose only whitespace character is
the space (which holds after replChar): the non-empty chunks between runs of
spaces. -/
def spaceWords (l : Str) : List Str :=
  (splitOnC ' ' l).filter (fun w => !w.isEmpty)

/-- Models Python str.strip() on a string whose only whitespace character is
the space (which holds after replChar). -/
def stripSp (l : Str) : Str :=
  ((l.dropWhile (fun c => c == ' ')).reverse.dropWhile (fun c => c == ' ')).reverse

/-- Joins chunks with a single space, like the Python expression
describing a join with separator one space. -/
def joinSp : List Str → Str
  | [] => []
  | [w] => w
  | w :: ws => w ++ ' ' :: joinSp ws

/-- Models str.replace of space by underscore. -/
def spaceToUnd (l : Str) : Str := l.map (fun c => if c == ' ' then '_' else c)

/-- Models MenuExplorer.clean_filename (ckan2.py lines 512-525): every
character outside the kept set becomes an underscore, the result is stripped,
runs of spaces collapse to single spaces which are then turned into
underscores, and the result is truncated to its first 50 characters. -/
def clean_filename (s : Str) : Str :=
  (spaceToUnd (joinSp (spaceWords (stripSp (s.map replChar))))).take 50

/-- Models the Python idiom of an optional string with an or-default: the
default is used when the value is absent or empty (both falsy). -/
def orS (a : Option Str) (dflt : Str) : Str :=
  match a with
  | none => dflt
  | some s => if s.isEmpty then dflt else s

/-- Models str.lower on the ASCII range. -/
def pyLower (s : Str) : Str := s.map Char.toLower

/-- Models str.upper on the ASCII range. -/
def pyUpper (s : Str) : Str := s.map Char.toUpper

/-- Models str.endswith. -/
def endsW (t l : Str) : Bool :=
  if t.length ≤ l.length then l.drop (l.length - t.length) == t else false

/-- Fields of a CKAN resource dictionary that the explorer reads. -/
structure Resource where
  name : Option Str
  description : Option Str
  format : Option Str
  url : Option Str
deriving DecidableEq

/-- Fields of a CKAN dataset dictionary that the explorer reads. -/
structure Dataset where
  id : Option Str
  name : Option Str
  title : Option Str
  notes : Option Str
  metadata_modified : Option Str
  resources : List Resource
deriving DecidableEq

/-- Models the filename construction of
MenuExplorer.descargar_recurso_individual (ckan2.py lines 492-510): the
resource name (falling back to its description and then to a fixed token) and
the dataset name (falling back to a fixed token) are each sanitized with
clean_filename and joined with an underscore; when a non-empty lower-cased
format is present and the sanitized resource name does not already end with a
dot plus that format, the extension is appended. The result is the filename
handed to download_resource. -/
def descargar_filename (r : Resource) (dataset_name : Option Str) : Str :=
  let nm := orS r.name (orS r.description (("recurso").toList))
  let format_type := pyLower (r.format.getD [])
  let safe_name := clean_filename nm
  let safe_dataset := clean_filename (orS dataset_name (("dataset").toList))
  if !format_type.isEmpty && !endsW ('.' :: format_type) safe_name then
    safe_dataset ++ '_' :: (safe_name ++ '.' :: format_type)
  else
    safe_dataset ++ '_' :: safe_name

/-- Truthiness of an optional Python string: absent and empty are falsy. -/
def truthyS (o : Option Str) : Bool :=
  match o with
  | none => false
  | some s => !s.isEmpty

/-- Models the description column built by process_datasets
(ba_explorer_app.py line 200): when the notes field is truthy, its first 150
characters followed by an ellipsis marker; otherwise the fixed sentinel. -/
def process_descripcion (notes : Option Str) : Str :=
  if truthyS notes then
    (notes.getD (("Sin descripción").toList)).take 150 ++ ("...").toList
  else ("Sin descripción").toList

/-- Models the description shown by MenuExplorer.mostrar_lista_datasets
(ckan2.py lines 330-333): an absent notes field becomes the sentinel, and a
description longer than 100 characters is cut to 100 plus an ellipsis. -/
def lista_notes (notes : Option Str) : Str :=
  let n := notes.getD (("Sin descripción").toList)
  if 100 < n.length then n.take 100 ++ ("...").toList else n

/-- Decoded JSON envelope of a CKAN action API response, restricted to the
fields make_request reads: success, result and error. -/
structure CkanEnvelope (α : Type) where
  success : Bool
  result : Option α
  error : Option Str
deriving DecidableEq

/-- Outcome of one HTTP fetch attempt, as discriminated by the except clauses
of make_request and make_api_request (ckan2.py lines 43-54 and 138-153): a
decoded body, or one of the classified failure modes (HTTP error status,
connection failure including timeouts, malformed JSON body, or any other
exception). -/
inductive Fetch (α : Type) where
  | ok (body : α)
  | httpError (code : Nat) (reason : Str)
  | urlError (reason : Str)
  | jsonError (msg : Str)
  | otherError (msg : Str)

/-- Error text used by make_request when the envelope has no error field. -/
def errorText (e : Option Str) : Str := e.getD (("Error desconocido").toList)

/-- Models BuenosAiresCKAN.make_request (ckan2.py lines 21-54) after transport
and JSON decoding: every exceptional failure mode yields none with a printed
error line, an envelope whose success flag is false prints the upstream error
message and yields none, and only a successful envelope yields its result
field. The second component is the list of printed lines. -/
def make_request {α : Type} (f : Fetch (CkanEnvelope α)) : Option α × List Str :=
  match f with
  | .ok env =>
    if env.success then (env.result, [])
    else (none, [("Error en la API: ").toList ++ errorText env.error])
  | .httpError code reason =>
    (none, [("Error HTTP ").toList ++ Nat.toDigits 10 code ++ (": ").toList ++ reason])
  | .urlError reason => (none, [("Error de conexión: ").toList ++ reason])
  | .jsonError msg => (none, [("Error al decodificar JSON: ").toList ++ msg])
  | .otherError msg => (none, [("Error inesperado: ").toList ++ msg])

/-- Models RealTimeAPI.make_api_request (ckan2.py lines 123-153): a decoded
body passes through unchanged, and every failure mode yields none, with the
401 and 429 statuses printing an additional advisory warning line. -/
def make_api_request {α : Type} (f : Fetch α) : Option α × List Str :=
  match f with
  | .ok body => (some body, [])
  | .httpError code reason =>
    let base := ("Error HTTP ").toList ++ Nat.toDigits 10 code ++ (": ").toList ++ reason
    if code == 401 then (none, [base, ("API requiere autenticación").toList])
    else if code == 429 then (none, [base, ("Límite de requests excedido").toList])
    else (none, [base])
  | .urlError reason => (none, [("Error de conexión: ").toList ++ reason])
  | .jsonError msg => (none, [("Error al decodificar respuesta: ").toList ++ msg])
  | .otherError msg => (none, [("Error inesperado: ").toList ++ msg])

/-- Session state held by MenuExplorer: the current result set stored in its
current_datasets field. -/
structure SessionState where
  current_datasets : List Dataset
deriving DecidableEq

/-- Decoded result dictionary of the package_search action. -/
structure SearchResult where
  count : Nat
  results : List Dataset
deriving DecidableEq

/-- Query parameters built by BuenosAiresCKAN.search_packages (ckan2.py lines
63-67): the query, the row limit, and a fixed sort order. -/
def search_params (query : Str) (rows : Nat) : List (Str × Str) :=
  [(("q").toList, query),
   (("rows").toList, Nat.toDigits 10 rows),
   (("sort").toList, ("metadata_modified desc").toList)]

/-- Models BuenosAiresCKAN.search_packages (ckan2.py lines 61-69): the row
limit is only forwarded upstream via search_params, and the decoded result
dictionary of the response is returned unchanged, with an empty result (the
falsy empty dictionary) when the request failed. No client-side truncation is
applied. -/
def search_packages (query : Str) (rows : Nat) (resp : Option SearchResult) : SearchResult :=
  match query, rows, resp with
  | _, _, some r => r
  | _, _, none => ⟨0, []⟩

/-- Models the state update of MenuExplorer.buscar_por_tema (ckan2.py lines
255-268): a truthy search result replaces the current result set with the
returned datasets, and a failed search leaves the state unchanged. -/
def buscar_por_tema (st : SessionState) (resp : Option SearchResult) : SessionState :=
  match resp with
  | none => st
  | some r => ⟨r.results⟩

/-- Report produced by MenuExplorer.mostrar_detalles_completos: either the
detail display of the fetched dataset, or the printed failure lines. -/
inductive DetailReport where
  | shown (d : Dataset)
  | failed (messages : List Str)
deriving DecidableEq

/-- Models MenuExplorer.mostrar_detalles_completos (ckan2.py lines 375-384)
composed with the detail request: the session state is returned untouched in
every branch, and when the detail call fails the printed lines (including the
upstream error message relayed by make_request) are reported instead of a
dataset. -/
def mostrar_detalles_completos (st : SessionState) (f : Fetch (CkanEnvelope Dataset)) :
    SessionState × DetailReport :=
  match make_request f with
  | (some d, _) => (st, .shown d)
  | (none, msgs) =>
    (st, .failed (msgs ++ [("No se pudo obtener información detallada.").toList]))

/-- Models the date column built by process_datasets (ba_explorer_app.py line
196): the first 10 characters of the metadata_modified field, with an empty
default. -/
def app_fecha (m : Option Str) : Str := (m.getD []).take 10

/-- Models the created and modified dates printed by
mostrar_detalles_completos (ckan2.py lines 400-405): the first 10 characters. -/
def detalle_fecha (s : Str) : Str := s.take 10

/-- Digit-string test. -/
def allDigits (l : Str) : Bool := l.all Char.isDigit

/-- Numeric value of a digit string. -/
def digitsVal (l : Str) : Nat := l.foldl (fun n c => n * 10 + (c.toNat - 48)) 0

/-- Gregorian leap-year test, as in Python's datetime module. -/
def isLeap (y : Nat) : Bool := (y % 4 == 0 && y % 100 != 0) || y % 400 == 0

/-- Number of days in a month, as validated by the datetime constructor. -/
def daysInMonth (y m : Nat) : Nat :=
  if m == 2 then (if isLeap y then 29 else 28)
  else if m == 4 || m == 6 || m == 9 || m == 11 then 30
  else 31

/-- Models datetime.strptime with format year-month-day (ckan2.py line 340): a
four-digit year of at least 1, a one- or two-digit month between 1 and 12, and
a one- or two-digit day valid for that month; any other shape raises, modeled
here as none. -/
def parseYMD (s : Str) : Option (Nat × Nat × Nat) :=
  match splitOnC '-' s with
  | [ys, ms, ds] =>
    if allDigits ys && ys.length == 4 && allDigits ms
        && (ms.length == 1 || ms.length == 2) && allDigits ds
        && (ds.length == 1 || ds.length == 2) then
      let y := digitsVal ys
      let m := digitsVal ms
      let d := digitsVal ds
      if 1 ≤ y ∧ 1 ≤ m ∧ m ≤ 12 ∧ 1 ≤ d ∧ d ≤ daysInMonth y m then
        some (y, m, d)
      else none
    else none
  | _ => none

/-- Left-pads a digit string with zeros up to the given width. -/
def padZ (w : Nat) (l : Str) : Str := List.replicate (w - l.length) '0' ++ l

/-- Models strftime with format day/month/year (ckan2.py line 341) for the
four-digit years accepted by parseYMD: zero-padded day and month, slash
separated, followed by the year. -/
def fmtDMY (y m d : Nat) : Str :=
  padZ 2 (Nat.toDigits 10 d) ++ '/' :: padZ 2 (Nat.toDigits 10 m)
    ++ '/' :: padZ 4 (Nat.toDigits 10 y)

/-- Models the modified-date normalization of
MenuExplorer.mostrar_lista_datasets (ckan2.py lines 335-345): a truthy value
containing the character T has its date part (everything before the first T)
parsed and reformatted as day/month/year; on parse failure, or when no T is
present, the value is cut to its first 10 characters, left unchanged when
already shorter. -/
def lista_fecha (s : Str) : Str :=
  if s.isEmpty then s
  else if 'T' ∈ s then
    match parseYMD (s.takeWhile (fun c => c != 'T')) with
    | some (y, m, d) => fmtDMY y m d
    | none => if 10 ≤ s.length then s.take 10 else s
  else s.take 10

/-- Models the per-resource format normalization used by ckan2.py (lines 356
and 425) and by the detail expander of ba_explorer_app.py (line 314): a
missing format becomes the fixed token and the value is upper-cased. -/
def ckan_fmt (f : Option Str) : Str := pyUpper (f.getD (("N/A").toList))

/-- Models the per-resource format entry of process_datasets
(ba_explorer_app.py line 191): a missing format becomes the fixed token, with
no case change applied. -/
def app_fmt (f : Option Str) : Str := f.getD (("N/A").toList)

/-- Fields of an organization dictionary that the explorer reads. -/
structure Org where
  name : Option Str
  display_name : Option Str
  package_count : Option Nat
  num_followers : Option Nat
deriving DecidableEq

/-- Sort key of the organization listing: the package_count field with a zero
default. -/
def pcount (o : Org) : Nat := o.package_count.getD 0

/-- Models the Python sorted call with the package-count key and reverse order
(ckan2.py line 295 and ba_explorer_app.py line 373): a stable sort, descending
by dataset count. Python's sorted is stable also under reverse ordering, which
is exactly the behavior of mergeSort under the reversed comparison. -/
def sortOrgsDesc (orgs : List Org) : List Org :=
  orgs.mergeSort (fun a b => decide (pcount b ≤ pcount a))

/-- Models MenuExplorer.ver_por_organizacion (ckan2.py line 295), which keeps
the top ten organizations after sorting. -/
def topOrgs (orgs : List Org) : List Org := (sortOrgsDesc orgs).take 10

/-- One processed row of the search dataframe, restricted to the columns the
filter block reads. -/
structure RowF where
  organizacion : Str
  formatos : Str
deriving DecidableEq

/-- Leading-match test used by the substring search. -/
def startsW : Str → Str → Bool
  | [], _ => true
  | _ :: _, [] => false
  | p :: ps, c :: cs => p == c && startsW ps cs

/-- Substring test modeling pandas str.contains for the plain format tokens
the app passes (none of which contain regex metacharacters). -/
def containsSub (pat : Str) : Str → Bool
  | [] => pat.isEmpty
  | c :: cs => startsW pat (c :: cs) || containsSub pat cs

/-- Models the filter block of ba_explorer_app.py lines 277-282: an optional
exact organization match followed by an optional format substring match; none
models the all-organizations and all-formats choices. -/
def applyFilter (orgF formatF : Option Str) (rows : List RowF) : List RowF :=
  let r1 := match orgF with
    | none => rows
    | some o => rows.filter (fun r => r.organizacion == o)
  match formatF with
  | none => r1
  | some f => r1.filter (fun r => containsSub f r.formatos)

/-! Helper lemmas about the sanitizer pipeline. -/

theorem keptChar_eq (c : Char) : keptChar c = (okChar c || c == ' ') := by
  unfold keptChar okChar
  cases h1 : pyIsAlnum c <;> cases h2 : c == ' ' <;> cases h3 : c == '-' <;>
    cases h4 : c == '_' <;> cases h5 : c == '.' <;> simp

theorem okChar_of_kept {c : Char} (h : keptChar c = true) (hs : c ≠ ' ') :
    okChar c = true := by
  rw [keptChar_eq] at h
  have : (c == ' ') = false := beq_eq_false_iff_ne.mpr hs
  simpa [this] using h

theorem keptChar_replChar (a : Char) : keptChar (replChar a) = true := by
  unfold replChar
  cases h : keptChar a with
  | false => simp only [h, if_false, Bool.false_eq_true]; decide
  | true => simp [h]

theorem keptChar_of_mem_map {c : Char} {s : Str} (h : c ∈ s.map replChar) :
    keptChar c = true := by
  rcases List.mem_map.mp h with ⟨a, _, rfl⟩
  exact keptChar_replChar a

theorem mem_stripSp {c : Char} {l : Str} (h : c ∈ stripSp l) : c ∈ l := by
  unfold stripSp at h
  rw [List.mem_reverse] at h
  have h1 := (List.dropWhile_sublist _).subset h
  rw [List.mem_reverse] at h1
  exact (List.dropWhile_sublist _).subset h1

@[simp] theorem splitOnC_nil (sep : Char) : splitOnC sep [] = [[]] := rfl

theorem splitOnC_cons (sep a : Char) (l : Str) :
    splitOnC sep (a :: l) =
      if a == sep then [] :: splitOnC sep l else consHead a (splitOnC sep l) := rfl

theorem splitOnC_ne_nil (sep : Char) (l : Str) : splitOnC sep l ≠ [] := by
  induction l with
  | nil => simp
  | cons a l ih =>
    rw [splitOnC_cons]
    by_cases ha : (a == sep) = true
    · simp [ha]
    · rw [if_neg ha]
      cases h : splitOnC sep l with
      | nil => exact absurd h ih
      | cons w ws => simp [consHead]

theorem mem_splitOnC {sep c : Char} {l w : Str}
    (hw : w ∈ splitOnC sep l) (hc : c ∈ w) : c ∈ l ∧ c ≠ sep := by
  induction l generalizing w with
  | nil =>
    simp only [splitOnC_nil, List.mem_singleton] at hw
    subst hw
    cases hc
  | cons a l ih =>
    rw [splitOnC_cons] at hw
    by_cases ha : (a == sep) = true
    · rw [if_pos ha] at hw
      rcases List.mem_cons.mp hw with rfl | hw'
      · cases hc
      · rcases ih hw' hc with ⟨h1, h2⟩
        exact ⟨List.mem_cons_of_mem _ h1, h2⟩
    · rw [if_neg ha] at hw
      cases h : splitOnC sep l with
      | nil => exact absurd h (splitOnC_ne_nil sep l)
      | cons w0 ws =>
        rw [h] at hw
        simp only [consHead] at hw
        rcases List.mem_cons.mp hw with rfl | hw'
        · rcases List.mem_cons.mp hc with rfl | hc'
          · refine ⟨List.mem_cons_self _ _, ?_⟩
            intro hcs
            exact ha (by simp [hcs])
          · rcases ih (h ▸ List.mem_cons_self w0 ws) hc' with ⟨h1, h2⟩
            exact ⟨List.mem_cons_of_mem _ h1, h2⟩
        · rcases ih (h ▸ List.mem_cons_of_mem w0 hw') hc with ⟨h1, h2⟩
          exact ⟨List.mem_cons_of_mem _ h1, h2⟩

theorem splitOnC_eq_self {sep : Char} {l : Str} (h : ∀ c ∈ l, c ≠ sep) :
    splitOnC sep l = [l] := by
  induction l with
  | nil => rfl
  | cons a l ih =>
    rw [splitOnC_cons]
    have ha : (a == sep) = false :=
      beq_eq_false_iff_ne.mpr (h a (List.mem_cons_self a l))
    rw [if_neg (by simp [ha])]
    rw [ih (fun c hc => h c (List.mem_cons_of_mem _ hc))]
    rfl

theorem mem_spaceWords {c : Char} {l w : Str} (hw : w ∈ spaceWords l) (hc : c ∈ w) :
    c ∈ l ∧ c ≠ ' ' := by
  unfold spaceWords at hw
  exact mem_splitOnC (List.mem_of_mem_filter hw) hc

@[simp] theorem joinSp_nil : joinSp [] = [] := rfl

@[simp] theorem joinSp_single (w : Str) : joinSp [w] = w := rfl

theorem joinSp_cons₂ (w x : Str) (ws : List Str) :
    joinSp (w :: x :: ws) = w ++ ' ' :: joinSp (x :: ws) := rfl

theorem mem_joinSp {c : Char} {ws : List Str} (h : c ∈ joinSp ws) :
    c = ' ' ∨ ∃ w ∈ ws, c ∈ w := by
  induction ws with
  | nil => cases h
  | cons w ws ih =>
    cases ws with
    | nil =>
      right
      exact ⟨w, List.mem_cons_self _ _, by simpa using h⟩
    | cons x ws' =>
      rw [joinSp_cons₂] at h
      rcases List.mem_append.mp h with h1 | h2
      · right
        exact ⟨w, List.mem_cons_self _ _, h1⟩
      · rcases List.mem_cons.mp h2 with rfl | h3
        · left; rfl
        · rcases ih h3 with h4 | ⟨v, hv, hcv⟩
          · left; exact h4
          · right; exact ⟨v, List.mem_cons_of_mem _ hv, hcv⟩

theorem mem_spaceToUnd {c : Char} {l : Str} (h : c ∈ spaceToUnd l) :
    c = '_' ∨ (c ∈ l ∧ c ≠ ' ') := by
  rcases List.mem_map.mp h with ⟨a, ha, rfl⟩
  cases hsp : (a == ' ') with
  | true => left; simp [hsp]
  | false =>
    right
    have hne : a ≠ ' ' := beq_eq_false_iff_ne.mp hsp
    simp only [hsp, Bool.false_eq_true, if_false]
    exact ⟨ha, hne⟩

theorem clean_filename_chars {c : Char} {s : Str} (h : c ∈ clean_filename s) :
    okChar c = true := by
  unfold clean_filename at h
  have h1 := List.mem_of_mem_take h
  rcases mem_spaceToUnd h1 with rfl | ⟨h2, hne⟩
  · decide
  · rcases mem_joinSp h2 with h' | ⟨w, hw, hcw⟩
    · exact absurd h' hne
    · rcases mem_spaceWords hw hcw with ⟨h3, _⟩
      exact okChar_of_kept (keptChar_of_mem_map (mem_stripSp h3)) hne

theorem clean_filename_length (s : Str) : (clean_filename s).length ≤ 50 := by
  unfold clean_filename
  exact List.length_take_le 50 _

theorem map_replChar_eq_self {r : Str} (h : ∀ c ∈ r, keptChar c = true) :
    r.map replChar = r := by
  have h' : ∀ c ∈ r, replChar c = id c := fun c hc => by
    unfold replChar
    rw [if_pos (h c hc)]
    rfl
  rw [List.map_congr_left h', List.map_id]

theorem dropWhileSp_eq_self {l : Str} (h : ∀ c ∈ l, c ≠ ' ') :
    l.dropWhile (fun c => c == ' ') = l := by
  cases l with
  | nil => rfl
  | cons a l =>
    rw [List.dropWhile_cons]
    rw [if_neg]
    simp only [beq_eq_false_iff_ne.mpr (h a (List.mem_cons_self a l))]
    simp

theorem stripSp_eq_self {r : Str} (h : ∀ c ∈ r, c ≠ ' ') : stripSp r = r := by
  unfold stripSp
  rw [dropWhileSp_eq_self h]
  rw [dropWhileSp_eq_self (fun c hc => h c (List.mem_reverse.mp hc))]
  exact List.reverse_reverse r

theorem spaceToUnd_eq_self {r : Str} (h : ∀ c ∈ r, c ≠ ' ') : spaceToUnd r = r := by
  have h' : ∀ c ∈ r, (if c == ' ' then '_' else c) = id c := fun c hc => by
    rw [if_neg]
    · rfl
    · simp [beq_eq_false_iff_ne.mpr (h c hc)]
  unfold spaceToUnd
  rw [List.map_congr_left h', List.map_id]

theorem clean_filename_fixed {r : Str} (hok : ∀ c ∈ r, okChar c = true)
    (hlen : r.length ≤ 50) : clean_filename r = r := by
  have hns : ∀ c ∈ r, c ≠ ' ' := by
    intro c hc hsp
    have h1 := hok c hc
    subst hsp
    simp [okChar, pyIsAlnum] at h1
  have hkept : ∀ c ∈ r, keptChar c = true := fun c hc => by
    rw [keptChar_eq, hok c hc]
    rfl
  unfold clean_filename
  rw [map_replChar_eq_self hkept, stripSp_eq_self hns]
  cases r with
  | nil => rfl
  | cons a l =>
    unfold spaceWords
    rw [splitOnC_eq_self hns]
    simp only [List.filter, List.isEmpty_cons, Bool.not_false]
    rw [joinSp_single, spaceToUnd_eq_self hns]
    exact List.take_of_length_le hlen

theorem descargar_filename_length (r : Resource) (dn : Option Str) :
    (descargar_filename r dn).length ≤ 102 + (pyLower (r.format.getD [])).length := by
  have h1 := clean_filename_length (orS r.name (orS r.description (("recurso").toList)))
  have h2 := clean_filename_length (orS dn (("dataset").toList))
  unfold descargar_filename
  dsimp only
  split
  · simp only [List.length_append, List.length_cons]
    omega
  · simp only [List.length_append, List.length_cons]
    omega

/-! Claims C1 and C10: the Download Manager naming path. -/

/-- Claim C1, counterexample: the filename ultimately handed to the downloader
can exceed 50 characters. A resource whose sanitized name has the full 50
characters, inside a dataset whose sanitized name also has 50, produces a
101-character filename, because descargar_recurso_individual concatenates the
two sanitized components after truncation. -/
theorem C1_counterexample :
    50 < (descargar_filename
      ⟨some (List.replicate 50 'b'), none, none, some (("u").toList)⟩
      (some (List.replicate 50 'a'))).length := by decide

/-- Claim C1, amended: each component produced by clean_filename never exceeds
50 characters and contains only allowed characters (alphanumerics, hyphen,
underscore, dot); the filename handed to the downloader is the two sanitized
components joined by an underscore, optionally followed by a dot and the
lower-cased format, so its length is bounded by 102 plus the format length
rather than by 50. -/
theorem C1_sanitizer_bounds (s : Str) (r : Resource) (dn : Option Str) :
    (clean_filename s).length ≤ 50 ∧ (clean_filename s).all okChar = true ∧
      (descargar_filename r dn).length ≤ 102 + (pyLower (r.format.getD [])).length :=
  ⟨clean_filename_length s,
   List.all_eq_true.mpr (fun _ hc => clean_filename_chars hc),
   descargar_filename_length r dn⟩

/-- Claim C10: the filename sanitizer is idempotent: sanitizing an
already-sanitized name changes nothing, because every output character is in
the kept set, no output character is a space, and the output length is at most
50. -/
theorem C10_clean_filename_idempotent (s : Str) :
    clean_filename (clean_filename s) = clean_filename s :=
  clean_filename_fixed (fun _ hc => clean_filename_chars hc) (clean_filename_length s)

/-! Claim C2: description normalization. -/

/-- Claim C2, counterexample: a present four-character description is not
returned unchanged by the search-result rendering; process_datasets appends
the ellipsis marker to every non-empty description, even one far below 150
characters. -/
theorem C2_counterexample :
    process_descripcion (some (("Hola").toList)) ≠ ("Hola").toList ∧
      process_descripcion (some (("Hola").toList)) = ("Hola...").toList := by decide

/-- Claim C2, amended: in the web app a present non-empty description always
maps to its first 150 characters followed by the ellipsis marker, even when it
is at most 150 characters long; an absent or empty description maps to the
fixed sentinel, never the empty string. The terminal list view instead
truncates at 100 characters and only when the description is longer than 100,
mapping an absent description to the same sentinel. -/
theorem C2_description_normalization (s t u : Str) (h : s ≠ [])
    (hlong : 100 < t.length) (hshort : u.length ≤ 100) :
    process_descripcion (some s) = s.take 150 ++ ("...").toList ∧
      process_descripcion none = ("Sin descripción").toList ∧
      process_descripcion (some []) = ("Sin descripción").toList ∧
      process_descripcion (some s) ≠ [] ∧
      lista_notes none = ("Sin descripción").toList ∧
      lista_notes (some t) = t.take 100 ++ ("...").toList ∧
      lista_notes (some u) = u := by
  refine ⟨?_, rfl, rfl, ?_, by decide, ?_, ?_⟩
  · cases s with
    | nil => exact absurd rfl h
    | cons a l => simp [process_descripcion, truthyS]
  · cases s with
    | nil => exact absurd rfl h
    | cons a l =>
      simp only [process_descripcion, truthyS, List.isEmpty_cons, Bool.not_false,
        if_true, Option.getD_some]
      simp [List.append_eq_nil]
  · unfold lista_notes
    rw [Option.getD_some, if_pos hlong]
  · unfold lista_notes
    rw [Option.getD_some, if_neg (by omega)]

/-- Claim C2, witness for the amended statement at concrete inputs. -/
theorem C2_witness :
    process_descripcion (some (("Hola").toList)) =
        (("Hola").toList).take 150 ++ ("...").toList ∧
      process_descripcion none = ("Sin descripción").toList ∧
      process_descripcion (some []) = ("Sin descripción").toList ∧
      process_descripcion (some (("Hola").toList)) ≠ [] ∧
      lista_notes none = ("Sin descripción").toList ∧
      lista_notes (some (List.replicate 101 'x')) =
        (List.replicate 101 'x').take 100 ++ ("...").toList ∧
      lista_notes (some (("corto").toList)) = ("corto").toList :=
  C2_description_normalization (("Hola").toList) (List.replicate 101 'x')
    (("corto").toList) (by decide) (by decide) (by decide)

/-! Claim C3: a failed Catalog Detail call. -/

/-- Claim C3: when the Catalog Detail call answers with an envelope whose
success flag is false, mostrar_detalles_completos leaves the session state
(the held result set) unchanged and reports a failure whose printed lines
carry the upstream error message relayed by make_request. -/
theorem C3_detail_failure_preserves_state (st : SessionState) (res : Option Dataset)
    (msg : Str) :
    mostrar_detalles_completos st (.ok ⟨false, res, some msg⟩) =
      (st, .failed [("Error en la API: ").toList ++ msg,
        ("No se pudo obtener información detallada.").toList]) := rfl

/-! Claim C4: the search row limit. -/

/-- Claim C4, counterexample: with a row limit of 2 and an upstream response
carrying three results, search_packages returns all three results; the bound
fails because the code performs no client-side truncation. -/
theorem C4_counterexample :
    ¬ ((search_packages (("transporte").toList) 2
        (some ⟨137, [⟨none, none, none, none, none, []⟩,
          ⟨none, none, none, none, none, []⟩,
          ⟨none, none, none, none, none, []⟩]⟩)).results.length ≤ 2) := by decide

/-- Claim C4, amended: search forwards the limit upstream as the rows request
parameter and returns the upstream result set unchanged (empty on a failed
request), so the returned set has length at most n exactly when the upstream
response itself contains at most n results. -/
theorem C4_search_forwards_upstream (q : Str) (n : Nat) (r : SearchResult) :
    search_packages q n (some r) = r ∧
      (search_packages q n none).results = [] ∧
      ((search_packages q n (some r)).results.length ≤ n ↔ r.results.length ≤ n) ∧
      (("rows").toList, Nat.toDigits 10 n) ∈ search_params q n := by
  refine ⟨rfl, rfl, Iff.rfl, ?_⟩
  simp [search_params]

/-! Claim C5: date normalization. -/

/-- Claim C5, counterexample: the terminal list view does not keep the first
10 characters of a full timestamp; it reparses the date part and reformats it
as day/month/year. -/
theorem C5_counterexample :
    lista_fecha (("2023-05-01T12:00:00").toList) = ("01/05/2023").toList ∧
      lista_fecha (("2023-05-01T12:00:00").toList) ≠
        (("2023-05-01T12:00:00").toList).take 10 := by decide

/-- Claim C5, amended: the web app and the detail view truncate date fields to
their first 10 characters, and a value shorter than 10 characters passes
through unchanged; the terminal list view applies the same truncation only to
values containing no T character, while a timestamp whose date part parses as
an ISO date is reformatted as day/month/year. -/
theorem C5_date_normalization (s t u : Str) (hu : u.length < 10) (ht : 'T' ∉ t) :
    app_fecha (some s) = s.take 10 ∧ detalle_fecha s = s.take 10 ∧
      app_fecha (some u) = u ∧ lista_fecha t = t.take 10 ∧
      lista_fecha (("2023-05-01T12:00:00").toList) = ("01/05/2023").toList := by
  refine ⟨rfl, rfl, ?_, ?_, by decide⟩
  · unfold app_fecha
    rw [Option.getD_some]
    exact List.take_of_length_le (by omega)
  · unfold lista_fecha
    by_cases he : t.isEmpty = true
    · rw [if_pos he]
      rw [List.isEmpty_iff.mp he]
      rfl
    · rw [if_neg he, if_neg ht]

/-- Claim C5, witness for the amended statement at concrete inputs. -/
theorem C5_witness :
    app_fecha (some (("2023-05-01T12:00:00").toList)) =
        (("2023-05-01T12:00:00").toList).take 10 ∧
      detalle_fecha (("2023-05-01T12:00:00").toList) =
        (("2023-05-01T12:00:00").toList).take 10 ∧
      app_fecha (some (("2023-05").toList)) = ("2023-05").toList ∧
      lista_fecha (("2023-05-01").toList) = (("2023-05-01").toList).take 10 ∧
      lista_fecha (("2023-05-01T12:00:00").toList) = ("01/05/2023").toList :=
  C5_date_normalization (("2023-05-01T12:00:00").toList) (("2023-05-01").toList)
    (("2023-05").toList) (by decide) (by decide)

/-! Claim C6: resource format normalization. -/

/-- Claim C6, counterexample: the formats column of process_datasets keeps the
upstream casing; a lower-case format is not upper-cased there, contradicting
the claim that every place normalizing formats upper-cases them. -/
theorem C6_counterexample :
    app_fmt (some (("csv").toList)) = ("csv").toList ∧
      app_fmt (some (("csv").toList)) ≠ pyUpper (("csv").toList) := by decide

/-- Claim C6, amended: the terminal list, the terminal detail view and the
app's detail expander upper-case the format and map a missing format to the
fixed token; the formats column of process_datasets only substitutes the fixed
token for a missing format and otherwise keeps the upstream casing unchanged. -/
theorem C6_format_normalization (f : Str) :
    ckan_fmt none = ("N/A").toList ∧ ckan_fmt (some f) = pyUpper f ∧
      app_fmt none = ("N/A").toList ∧ app_fmt (some f) = f ∧
      ckan_fmt (some (("csv").toList)) = ("CSV").toList :=
  ⟨by decide, rfl, rfl, rfl, by decide⟩

/-! Claim C7: the organization listing order. -/

theorem orgLe_trans : ∀ (a b c : Org),
    (decide (pcount b ≤ pcount a)) = true → (decide (pcount c ≤ pcount b)) = true →
    (decide (pcount c ≤ pcount a)) = true := by
  intro a b c h1 h2
  rw [decide_eq_true_eq] at *
  omega

theorem orgLe_total : ∀ (a b : Org),
    (decide (pcount b ≤ pcount a) || decide (pcount a ≤ pcount b)) = true := by
  intro a b
  rcases Nat.le_total (pcount b) (pcount a) with h | h <;> simp [h]

/-- Claim C7: the organization listing is a permutation of the upstream list,
sorted in descending order of dataset count, and any two organizations with
equal dataset counts keep their original upstream order: for every count, the
sorted list filtered to that count equals the upstream list filtered to that
count. The top-ten view is the prefix of this ordering. -/
theorem C7_org_sort_stable_desc (orgs : List Org) :
    (sortOrgsDesc orgs).Perm orgs ∧
      (sortOrgsDesc orgs).Pairwise (fun a b => pcount b ≤ pcount a) ∧
      (∀ n : Nat, (sortOrgsDesc orgs).filter (fun o => pcount o == n)
        = orgs.filter (fun o => pcount o == n)) ∧
      topOrgs orgs = (sortOrgsDesc orgs).take 10 := by
  refine ⟨List.mergeSort_perm orgs _, ?_, ?_, rfl⟩
  · have h := List.sorted_mergeSort orgLe_trans orgLe_total orgs
    exact h.imp (fun hab => of_decide_eq_true hab)
  · intro n
    have hsub : (orgs.filter (fun o => pcount o == n)).Sublist orgs :=
      List.filter_sublist orgs
    have hpw : (orgs.filter (fun o => pcount o == n)).Pairwise
        (fun a b => (decide (pcount b ≤ pcount a)) = true) := by
      apply List.pairwise_of_forall_mem_list
      intro a ha b hb
      have ha' := (List.mem_filter.mp ha).2
      have hb' := (List.mem_filter.mp hb).2
      rw [beq_iff_eq] at ha' hb'
      simp [ha', hb']
    have h1 : (orgs.filter (fun o => pcount o == n)).Sublist (sortOrgsDesc orgs) :=
      List.sublist_mergeSort orgLe_trans orgLe_total hpw hsub
    have hA : ((orgs.filter (fun o => pcount o == n)).filter (fun o => pcount o == n))
        = orgs.filter (fun o => pcount o == n) :=
      List.filter_eq_self.mpr (fun a ha => (List.mem_filter.mp ha).2)
    have h2 : (orgs.filter (fun o => pcount o == n)).Sublist
        ((sortOrgsDesc orgs).filter (fun o => pcount o == n)) := by
      have h3 := List.Sublist.filter (fun o => pcount o == n) h1
      rwa [hA] at h3
    have hlen : (orgs.filter (fun o => pcount o == n)).length
        = ((sortOrgsDesc orgs).filter (fun o => pcount o == n)).length := by
      rw [← List.countP_eq_length_filter, ← List.countP_eq_length_filter]
      exact ((List.mergeSort_perm orgs _).countP_eq _).symm
    exact (h2.eq_of_length hlen).symm

/-! Claim C8: the transport layer converts every failure into none. -/

/-- Claim C8: for every classified failure mode of a fetch attempt (HTTP error
status, connection failure including timeouts, malformed JSON body, or any
other exception), both make_request and make_api_request return none rather
than propagating the failure; in the embedding every failure is one of the
Fetch constructors and each maps to none. -/
theorem C8_transport_failures_to_none (code : Nat) (reason msg : Str) :
    (make_request (Fetch.httpError code reason : Fetch (CkanEnvelope Dataset))).1 = none ∧
      (make_request (Fetch.urlError reason : Fetch (CkanEnvelope Dataset))).1 = none ∧
      (make_request (Fetch.jsonError msg : Fetch (CkanEnvelope Dataset))).1 = none ∧
      (make_request (Fetch.otherError msg : Fetch (CkanEnvelope Dataset))).1 = none ∧
      (make_api_request (Fetch.httpError code reason : Fetch SearchResult)).1 = none ∧
      (make_api_request (Fetch.urlError reason : Fetch SearchResult)).1 = none ∧
      (make_api_request (Fetch.jsonError msg : Fetch SearchResult)).1 = none ∧
      (make_api_request (Fetch.otherError msg : Fetch SearchResult)).1 = none := by
  refine ⟨rfl, rfl, rfl, rfl, ?_, rfl, rfl, rfl⟩
  unfold make_api_request
  dsimp only
  split
  · rfl
  · split
    · rfl
    · rfl

/-! Claim C9: the client-side filter is idempotent. -/

theorem filter_twice {α : Type} (p : α → Bool) (l : List α) :
    (l.filter p).filter p = l.filter p := by
  simp only [List.filter_filter]
  apply List.filter_congr
  intro a _
  cases hp : p a <;> simp [hp]

theorem filter_pq_twice {α : Type} (p q : α → Bool) (l : List α) :
    (((l.filter p).filter q).filter p).filter q = (l.filter p).filter q := by
  simp only [List.filter_filter]
  apply List.filter_congr
  intro a _
  cases hp : p a <;> cases hq : q a <;> simp [hp, hq]

/-- Claim C9: applyFilter is idempotent: for every result set and every filter
choice (optional organization exact match, optional format substring match),
applying the same filter twice yields exactly the same rows as applying it
once. -/
theorem C9_applyFilter_idempotent (orgF formatF : Option Str) (rows : List RowF) :
    applyFilter orgF formatF (applyFilter orgF formatF rows) =
      applyFilter orgF formatF rows := by
  cases orgF with
  | none =>
    cases formatF with
    | none => rfl
    | some f => exact filter_twice _ rows
  | some o =>
    cases formatF with
    | none => exact filter_twice _ rows
    | some f => exact filter_pq_twice _ _ rows

end BAExplorer
